import Mathlib

/-!
# Face pose inference of `src/main.cpp`

A shallow embedding of `RectMiddle`, `TryGetEyes` and `GetFaces`.

* C++ `int` is embedded as `Int`; the embedding agrees with the program on every
  input on which no signed overflow occurs (signed overflow has no defined behaviour).
  The only product is `width * height` of a detection inside a camera frame.
* `cv::Point`, `cv::Rect` and `cv::Mat` are OpenCV library types; only the members the
  program uses are modelled. `image(detection)` throws when the rectangle is not inside the
  image: `Mat.roi` returns `none` there, and the result of `GetFaces` records both the
  out-parameter `faces` and whether the call was left by that exception.
* The two cascade classifiers are external: they enter as functions from an image to the
  list of rectangles that `detectMultiScale` writes into `detections`.
* `std::sort` leaves the relative order of equal elements open, so it enters as a
  function `sort` together with the contract `IsStdSort`; `stdSort` is one instance.
* The `float` fields of `Face` are generic in a field `F`, with `std::atan2` and `std::cos`
  as parameters. The theorems about angles take `F = ℝ`, `std::cos = Real.cos` and
  `std::atan2 y x = Complex.arg ⟨x, y⟩`, the exact two-argument arctangent.
-/

namespace OpenCVFun

/-! ## OpenCV value types -/

/-- OpenCV `cv::Point` (`Point_<int>`). -/
structure Point where
  x : Int
  y : Int
deriving DecidableEq

/-- OpenCV `cv::Rect` (`Rect_<int>`): origin, width and height. -/
structure Rect where
  x : Int
  y : Int
  width : Int
  height : Int
deriving DecidableEq

/-- OpenCV `Rect_::area()`: `width * height`. -/
def Rect.area (r : Rect) : Int := r.width * r.height

/-- OpenCV `Rect_::empty()`: `width <= 0 || height <= 0`. -/
def Rect.empty (r : Rect) : Bool := decide (r.width ≤ 0) || decide (r.height ≤ 0)

/-- OpenCV `cv::Mat` restricted to a single-channel raster: its size and its pixels. -/
structure Mat where
  rows : Nat
  cols : Nat
  pixel : Nat → Nat → Nat

/-- OpenCV `Mat::empty()`: no element (`total() == 0`). -/
def Mat.empty (m : Mat) : Bool := m.rows * m.cols == 0

/-- The condition `Mat::operator()(const Rect&)` asserts: the rectangle lies inside the
image, `0 <= x && 0 <= width && x + width <= cols && 0 <= y && 0 <= height &&
y + height <= rows`. -/
def Mat.contains (m : Mat) (r : Rect) : Bool :=
  decide (0 ≤ r.x) && decide (0 ≤ r.width) && decide (r.x + r.width ≤ (m.cols : Int)) &&
    decide (0 ≤ r.y) && decide (0 ≤ r.height) && decide (r.y + r.height ≤ (m.rows : Int))

/-- OpenCV `Mat::operator()(const Rect&)`, written `image(detection)` in the source: the
sub-image of `height` rows and `width` columns whose top-left pixel is `(x, y)`. When the
rectangle does not lie inside the image the call throws a `cv::Exception`: `none`. -/
def Mat.roi (m : Mat) (r : Rect) : Option Mat :=
  if m.contains r then
    some { rows := r.height.toNat
           cols := r.width.toNat
           pixel := fun i j => m.pixel (r.y.toNat + i) (r.x.toNat + j) }
  else none

/-! ## `std::sort` with the comparator of `TryGetEyes` -/

/-- The comparator passed to `std::sort` in `TryGetEyes`: `a.area() > b.area()`. -/
def areaGreater (a b : Rect) : Bool := decide (a.area > b.area)

/-- The contract of `std::sort(first, last, comp)` for `comp = areaGreater`: the result is a
rearrangement of the input in which no later element compares before an earlier one. -/
def IsStdSort (sort : List Rect → List Rect) : Prop :=
  ∀ l, (sort l).Perm l ∧ (sort l).Pairwise (fun a b => areaGreater b a = false)

/-- One sorting function that meets `IsStdSort`: insertion sort, descending by area. -/
def stdSort (l : List Rect) : List Rect :=
  l.insertionSort (fun a b => b.area ≤ a.area)

/-! ## The program -/

/-- Function `RectMiddle` (main.cpp:10-13); `/` on `int` truncates. -/
def RectMiddle (rect : Rect) : Point :=
  ⟨rect.x + rect.width.tdiv 2, rect.y + rect.height.tdiv 2⟩

/-- The update `p.x += offset.x; p.y += offset.y` that `TryGetEyes` (main.cpp:70-73) applies
to each eye point. -/
def Point.translate (p offset : Point) : Point := ⟨p.x + offset.x, p.y + offset.y⟩

/-- Function `TryGetEyes` (main.cpp:35-76). The result `some (leftEye, rightEye)` stands for
`return true` with the two out-parameters set, `none` for `return false`. The last case of
the `match` is not reached when `sort` keeps the length of the list: the source reads
`detections[0]` and `detections[1]` after checking `detections.size() >= 2`. -/
def TryGetEyes (eyeCC : Mat → List Rect) (sort : List Rect → List Rect)
    (image : Mat) (offset : Point) : Option (Point × Point) :=
  if image.empty then none
  else
    let detections := eyeCC image
    if detections.length < 2 then none
    else
      match sort detections with
      | d0 :: d1 :: _ =>
        if d0.empty || d1.empty then none
        else
          let eyes : Point × Point :=
            if d0.x < d1.x then (RectMiddle d0, RectMiddle d1)
            else (RectMiddle d1, RectMiddle d0)
          some (eyes.1.translate offset, eyes.2.translate offset)
      | _ => none

/-- The `Face` record (main.cpp:78-87); `F` stands for `float`. -/
structure Face (F : Type) where
  pos : Point
  width : F
  tiltRads : F
  leftEye : Point
  rightEye : Point

/-- The tilt assignment of `GetFaces` (main.cpp:114-121). -/
def GetFaces.tilt {F : Type} [Field F] (atan2 : F → F → F) (leftEye rightEye : Point) : F :=
  if leftEye.x < rightEye.x then
    atan2 ((rightEye.y - leftEye.y : Int) : F) ((rightEye.x - leftEye.x : Int) : F)
  else
    atan2 ((leftEye.y - rightEye.y : Int) : F) ((leftEye.x - rightEye.x : Int) : F)

/-- The part of the loop body of `GetFaces` that follows a successful `TryGetEyes`
(main.cpp:106-124): the record built from the detection and the two eye points. -/
def GetFaces.pose {F : Type} [Field F] (atan2 : F → F → F) (cos : F → F)
    (detection : Rect) (leftEye rightEye : Point) : Face F :=
  let tiltRads := GetFaces.tilt atan2 leftEye rightEye
  { pos := RectMiddle detection
    width := ((detection.width : F) / cos tiltRads) * 0.5
    tiltRads := tiltRads
    leftEye := leftEye
    rightEye := rightEye }

/-- The state a call of `GetFaces` leaves behind: the out-parameter `faces`, and whether
the call was left by the exception of `image(detection)` (`threw = true`) or returned
(`threw = false`). The faces `GetFaces` returns are `faces` when `threw = false`. -/
structure GetFaces.Outcome (F : Type) where
  faces : List (Face F)
  threw : Bool

/-- One iteration of the `for` loop of `GetFaces` (main.cpp:102-127) on the faces
collected so far. Once `image(detection)` has thrown, no further iteration runs. -/
def GetFaces.step {F : Type} [Field F] (atan2 : F → F → F) (cos : F → F)
    (sort : List Rect → List Rect) (eyeCC : Mat → List Rect) (image : Mat)
    (st : GetFaces.Outcome F) (detection : Rect) : GetFaces.Outcome F :=
  if st.threw then st
  else if detection.empty then st
  else
    match image.roi detection with
    | none => { st with threw := true }
    | some crop =>
      match TryGetEyes eyeCC sort crop ⟨detection.x, detection.y⟩ with
      | none => st
      | some (leftEye, rightEye) =>
        { st with faces := st.faces ++ [GetFaces.pose atan2 cos detection leftEye rightEye] }

/-- Function `GetFaces` (main.cpp:88-128): `faces` is emptied, an empty image returns at
once, otherwise the loop runs over the face detections. -/
def GetFaces {F : Type} [Field F] (atan2 : F → F → F) (cos : F → F)
    (sort : List Rect → List Rect) (faceCC eyeCC : Mat → List Rect)
    (image : Mat) : GetFaces.Outcome F :=
  if image.empty then ⟨[], false⟩
  else (faceCC image).foldl (GetFaces.step atan2 cos sort eyeCC image) ⟨[], false⟩

/-! ## Concrete inputs -/

/-- A 640x480 frame, all pixels black. -/
def frame : Mat := ⟨480, 640, fun _ _ => 0⟩

/-- Three eye detections of areas 100, 200 and 5 at `x = 50`, `x = 10` and `x = 30`. -/
def eyesThree : List Rect := [⟨50, 0, 10, 10⟩, ⟨10, 0, 20, 10⟩, ⟨30, 0, 5, 1⟩]

/-- A single eye detection. -/
def eyesOne : List Rect := [⟨12, 20, 30, 30⟩]

/-- Two eye detections: a wide one at `x = 0` (center `(50, 50)`) and a narrow one at
`x = 10` (center `(25, 15)`). -/
def eyesWide : List Rect := [⟨0, 0, 100, 100⟩, ⟨10, 0, 30, 30⟩]

/-- Two eye detections of areas 1764 and 1600, the larger one further right. -/
def eyesPair : List Rect := [⟨120, 60, 42, 42⟩, ⟨30, 50, 40, 40⟩]

/-- Two detections stacked above one another: their centers are `(60, 30)` and `(60, 80)`. -/
def eyesStacked : List Rect := [⟨40, 10, 40, 40⟩, ⟨45, 65, 30, 30⟩]

/-- A face detection of 200x200 pixels at `(100, 100)`. -/
def faceRect : Rect := ⟨100, 100, 200, 200⟩

/-- A face detection of 200x200 pixels at `(600, 400)`: it reaches beyond the 640x480
frame. -/
def faceOut : Rect := ⟨600, 400, 200, 200⟩

/-- Three face detections: `faceRect`, an empty rectangle and a 180x180 one. -/
def facesThree : List Rect := [faceRect, ⟨0, 0, 0, 0⟩, ⟨350, 120, 180, 180⟩]

/-- An eye detector that reports `eyesPair` on crops of 200 rows and `eyesOne` elsewhere. -/
def eyeCCBySize (m : Mat) : List Rect := if m.rows = 200 then eyesPair else eyesOne

/-! ## Auxiliary facts -/

theorem Rect.empty_eq_false_iff (r : Rect) :
    r.empty = false ↔ 0 < r.width ∧ 0 < r.height := by
  simp [Rect.empty]

theorem Rect.area_pos_of_not_empty {r : Rect} (h : r.empty = false) : 0 < r.area := by
  rw [Rect.empty_eq_false_iff] at h
  exact Int.mul_pos h.1 h.2

theorem Rect.not_empty_of_area_pos {r : Rect} (hw : 0 ≤ r.width) (hh : 0 ≤ r.height)
    (h : 0 < r.area) : r.empty = false := by
  rw [Rect.empty_eq_false_iff]
  unfold Rect.area at h
  constructor
  · rcases hw.lt_or_eq with h1 | h1
    · exact h1
    · rw [← h1] at h; simp at h
  · rcases hh.lt_or_eq with h1 | h1
    · exact h1
    · rw [← h1] at h; simp at h

theorem areaGreater_eq_false_iff (a b : Rect) : areaGreater b a = false ↔ b.area ≤ a.area := by
  simp [areaGreater]

theorem stdSort_isStdSort : IsStdSort stdSort := by
  intro l
  haveI : IsTotal Rect (fun a b => b.area ≤ a.area) := ⟨fun a b => Int.le_total b.area a.area⟩
  haveI : IsTrans Rect (fun a b => b.area ≤ a.area) :=
    ⟨fun a b c hab hbc => Int.le_trans hbc hab⟩
  refine ⟨List.perm_insertionSort _ l, ?_⟩
  have hs := List.sorted_insertionSort (fun a b : Rect => b.area ≤ a.area) l
  exact List.Pairwise.imp (fun {a b} h => (areaGreater_eq_false_iff a b).2 h) hs

/-- The result of `TryGetEyes` on a non-empty image, in terms of the sorted detections. -/
theorem TryGetEyes_of_sorted (eyeCC : Mat → List Rect) (sort : List Rect → List Rect)
    (image : Mat) (offset : Point) (d0 d1 : Rect) (rest : List Rect)
    (himg : image.empty = false) (hs : sort (eyeCC image) = d0 :: d1 :: rest)
    (hlen : 2 ≤ (eyeCC image).length) :
    TryGetEyes eyeCC sort image offset =
      if d0.empty || d1.empty then none
      else if d0.x < d1.x then
        some ((RectMiddle d0).translate offset, (RectMiddle d1).translate offset)
      else some ((RectMiddle d1).translate offset, (RectMiddle d0).translate offset) := by
  unfold TryGetEyes
  have h2 : ¬ (eyeCC image).length < 2 := by omega
  simp only [himg, h2, hs]
  by_cases hx : d0.x < d1.x <;> simp [hx]

/-- A sort output of a list with at least two elements starts with two elements. -/
theorem sorted_two_le (sort : List Rect → List Rect) (hsort : IsStdSort sort)
    (l : List Rect) (hlen : 2 ≤ l.length) :
    ∃ d0 d1 rest, sort l = d0 :: d1 :: rest := by
  have hp := (hsort l).1.length_eq
  match hs : sort l with
  | [] => rw [hs] at hp; simp at hp; omega
  | [_] => rw [hs] at hp; simp at hp; omega
  | d0 :: d1 :: rest => exact ⟨d0, d1, rest, rfl⟩

theorem Rect.area_le_zero_of_empty {r : Rect} (hw : 0 ≤ r.width) (hh : 0 ≤ r.height)
    (h : r.empty = true) : r.area ≤ 0 := by
  by_contra hc
  have hpos : 0 < r.area := by omega
  have := Rect.not_empty_of_area_pos hw hh hpos
  rw [h] at this
  exact Bool.noConfusion this

theorem Rect.empty_of_area_le_zero {r : Rect} (h : r.area ≤ 0) : r.empty = true := by
  cases he : r.empty with
  | true => rfl
  | false =>
    have := Rect.area_pos_of_not_empty he
    omega

/-- What a successful `TryGetEyes` tells: the image was not empty, the sorted detections
start with two non-empty rectangles, and the eyes are their translated centers, ordered by
the `x` field of the rectangles. -/
theorem TryGetEyes_some_inv (eyeCC : Mat → List Rect) (sort : List Rect → List Rect)
    (image : Mat) (offset l r : Point)
    (h : TryGetEyes eyeCC sort image offset = some (l, r)) :
    image.empty = false ∧ 2 ≤ (eyeCC image).length ∧
    ∃ d0 d1 rest, sort (eyeCC image) = d0 :: d1 :: rest ∧
      d0.empty = false ∧ d1.empty = false ∧
      ((d0.x < d1.x ∧ l = (RectMiddle d0).translate offset ∧
          r = (RectMiddle d1).translate offset) ∨
       (¬ d0.x < d1.x ∧ l = (RectMiddle d1).translate offset ∧
          r = (RectMiddle d0).translate offset)) := by
  cases himg : image.empty with
  | true => simp [TryGetEyes, himg] at h
  | false =>
    by_cases hlen : (eyeCC image).length < 2
    · simp [TryGetEyes, himg, hlen] at h
    · refine ⟨rfl, by omega, ?_⟩
      match hs : sort (eyeCC image) with
      | [] => simp [TryGetEyes, himg, hlen, hs] at h
      | [_] => simp [TryGetEyes, himg, hlen, hs] at h
      | d0 :: d1 :: rest =>
        rw [TryGetEyes_of_sorted eyeCC sort image offset d0 d1 rest himg hs (by omega)] at h
        cases h0 : d0.empty with
        | true => simp [h0] at h
        | false =>
          cases h1 : d1.empty with
          | true => simp [h1] at h
          | false =>
            refine ⟨d0, d1, rest, rfl, h0, h1, ?_⟩
            by_cases hx : d0.x < d1.x
            · simp [h0, h1, hx] at h
              exact Or.inl ⟨hx, h.1.symm, h.2.symm⟩
            · simp [h0, h1, hx] at h
              exact Or.inr ⟨hx, h.1.symm, h.2.symm⟩

/-! ## Eye-pair resolution -/

/-- C2. On a non-empty crop whose raw eye detections all have non-negative width and
height, `TryGetEyes` fails if and only if fewer than two of the detections are non-empty,
for every sorting function that meets the contract of `std::sort` (so for every order in
which rectangles of equal area may end up). -/
theorem TryGetEyes_eq_none_iff (eyeCC : Mat → List Rect) (sort : List Rect → List Rect)
    (image : Mat) (offset : Point) (hsort : IsStdSort sort) (himg : image.empty = false)
    (hnn : ∀ r ∈ eyeCC image, 0 ≤ r.width ∧ 0 ≤ r.height) :
    TryGetEyes eyeCC sort image offset = none ↔
      ((eyeCC image).filter (fun r => !r.empty)).length < 2 := by
  have hperm := (hsort (eyeCC image)).1
  have hpw := (hsort (eyeCC image)).2
  have hcount : ((eyeCC image).filter (fun r => !r.empty)).length =
      ((sort (eyeCC image)).filter (fun r => !r.empty)).length :=
    (hperm.filter _).length_eq.symm
  by_cases hlen : (eyeCC image).length < 2
  · have hnone : TryGetEyes eyeCC sort image offset = none := by
      simp [TryGetEyes, himg, hlen]
    have hle := List.length_filter_le (fun r : Rect => !r.empty) (eyeCC image)
    simp only [hnone, true_iff]
    omega
  · obtain ⟨d0, d1, rest, hs⟩ := sorted_two_le sort hsort (eyeCC image) (by omega)
    rw [TryGetEyes_of_sorted eyeCC sort image offset d0 d1 rest himg hs (by omega), hcount, hs]
    rw [hs] at hpw hperm
    have hnn2 : ∀ r ∈ d0 :: d1 :: rest, 0 ≤ r.width ∧ 0 ≤ r.height :=
      fun r hr => hnn r (hperm.subset hr)
    rw [List.pairwise_cons, List.pairwise_cons] at hpw
    obtain ⟨h0, h1, -⟩ := hpw
    have hrest : ∀ r ∈ rest, d1.empty = true → r.empty = true := by
      intro r hr he
      have ha := (areaGreater_eq_false_iff d1 r).1 (h1 r hr)
      have hd1 := Rect.area_le_zero_of_empty (hnn2 d1 (by simp)).1 (hnn2 d1 (by simp)).2 he
      exact Rect.empty_of_area_le_zero (by omega)
    have hall : ∀ r ∈ d1 :: rest, d0.empty = true → r.empty = true := by
      intro r hr he
      have ha := (areaGreater_eq_false_iff d0 r).1 (h0 r hr)
      have hd0 := Rect.area_le_zero_of_empty (hnn2 d0 (by simp)).1 (hnn2 d0 (by simp)).2 he
      exact Rect.empty_of_area_le_zero (by omega)
    cases he0 : d0.empty with
    | true =>
      have hf : (d0 :: d1 :: rest).filter (fun r => !r.empty) = [] := by
        rw [List.filter_eq_nil_iff]
        intro r hr
        rcases List.mem_cons.1 hr with rfl | hr
        · simp [he0]
        · simp [hall r hr he0]
      simp [hf]
    | false =>
      cases he1 : d1.empty with
      | true =>
        have hf : rest.filter (fun r => !r.empty) = [] := by
          rw [List.filter_eq_nil_iff]
          intro r hr
          simp [hrest r hr he1]
        simp [List.filter_cons, he0, he1, hf]
      | false =>
        by_cases hx : d0.x < d1.x <;> simp [List.filter_cons, he0, he1, hx]

/-- C3. When `TryGetEyes` succeeds, the detections contain two rectangles `p` and `q` at
distinct positions, both non-empty, such that every other detection has an area that is at
most the area of `p` and at most the area of `q`, and the two returned eye points are the
centers of `p` and `q` (moved by `offset`, which is `(0, 0)` for crop-local coordinates).
No assumption on the sign of widths and heights is needed. -/
theorem TryGetEyes_two_largest (eyeCC : Mat → List Rect) (sort : List Rect → List Rect)
    (image : Mat) (offset l r : Point) (hsort : IsStdSort sort)
    (h : TryGetEyes eyeCC sort image offset = some (l, r)) :
    ∃ p q a b c, eyeCC image = a ++ p :: (b ++ q :: c) ∧
      p.empty = false ∧ q.empty = false ∧
      (∀ o ∈ a ++ b ++ c, o.area ≤ p.area ∧ o.area ≤ q.area) ∧
      ((l = (RectMiddle p).translate offset ∧ r = (RectMiddle q).translate offset) ∨
       (l = (RectMiddle q).translate offset ∧ r = (RectMiddle p).translate offset)) := by
  obtain ⟨-, -, d0, d1, rest, hs, he0, he1, hlr⟩ :=
    TryGetEyes_some_inv eyeCC sort image offset l r h
  have hperm := (hsort (eyeCC image)).1
  have hpw := (hsort (eyeCC image)).2
  rw [hs] at hperm hpw
  rw [List.pairwise_cons, List.pairwise_cons] at hpw
  obtain ⟨h0, h1, -⟩ := hpw
  have h01 : d1.area ≤ d0.area := (areaGreater_eq_false_iff d0 d1).1 (h0 d1 (by simp))
  have hrest : ∀ o ∈ rest, o.area ≤ d0.area ∧ o.area ≤ d1.area := by
    intro o ho
    have := (areaGreater_eq_false_iff d1 o).1 (h1 o ho)
    exact ⟨by omega, this⟩
  have hlr2 : (l = (RectMiddle d0).translate offset ∧ r = (RectMiddle d1).translate offset) ∨
      (l = (RectMiddle d1).translate offset ∧ r = (RectMiddle d0).translate offset) := by
    rcases hlr with ⟨-, hl, hr⟩ | ⟨-, hl, hr⟩
    · exact Or.inl ⟨hl, hr⟩
    · exact Or.inr ⟨hl, hr⟩
  obtain ⟨a, b, hab⟩ := List.append_of_mem (hperm.subset (List.mem_cons_self d0 _))
  rw [hab] at hperm
  have hperm1 : (d1 :: rest).Perm (a ++ b) := (hperm.trans List.perm_middle).cons_inv
  rcases List.mem_append.1 (hperm1.subset (List.mem_cons_self d1 _)) with hd1 | hd1
  · obtain ⟨a1, a2, ha⟩ := List.append_of_mem hd1
    subst ha
    have hperm2 : rest.Perm (a1 ++ a2 ++ b) := by
      have e : a1 ++ d1 :: a2 ++ b = a1 ++ d1 :: (a2 ++ b) := by simp
      rw [e] at hperm1
      have := (hperm1.trans List.perm_middle).cons_inv
      simpa using this
    refine ⟨d1, d0, a1, a2, b, by rw [hab]; simp, he1, he0, ?_, hlr2.symm⟩
    intro o ho
    have := hrest o (hperm2.symm.subset ho)
    exact ⟨this.2, this.1⟩
  · obtain ⟨b1, b2, hb⟩ := List.append_of_mem hd1
    subst hb
    have hperm2 : rest.Perm (a ++ b1 ++ b2) := by
      have e : a ++ (b1 ++ d1 :: b2) = (a ++ b1) ++ d1 :: b2 := by simp
      rw [e] at hperm1
      exact (hperm1.trans List.perm_middle).cons_inv
    exact ⟨d0, d1, a, b1, b2, hab, he0, he1, fun o ho => hrest o (hperm2.symm.subset ho), hlr2⟩

/-! ## The loop of `GetFaces` -/

theorem Mat.roi_eq_some (m : Mat) (d : Rect) (h : m.contains d = true) :
    m.roi d = some { rows := d.height.toNat
                     cols := d.width.toNat
                     pixel := fun i j => m.pixel (d.y.toNat + i) (d.x.toNat + j) } := by
  simp [Mat.roi, h]

theorem Mat.roi_eq_none (m : Mat) (d : Rect) (h : m.contains d = false) : m.roi d = none := by
  simp [Mat.roi, h]

theorem Mat.contains_of_roi (m : Mat) (d : Rect) (crop : Mat) (h : m.roi d = some crop) :
    m.contains d = true := by
  cases hc : m.contains d with
  | true => rfl
  | false => rw [Mat.roi_eq_none m d hc] at h; exact Option.noConfusion h

/-- The crop of a non-empty rectangle is not empty. -/
theorem Mat.roi_not_empty (m : Mat) (d : Rect) (crop : Mat) (hr : m.roi d = some crop)
    (h : d.empty = false) : crop.empty = false := by
  rw [Mat.roi_eq_some m d (Mat.contains_of_roi m d crop hr)] at hr
  rw [Rect.empty_eq_false_iff] at h
  have h1 : 0 < d.height.toNat := by omega
  have h2 : 0 < d.width.toNat := by omega
  have hc := (Option.some.inj hr).symm
  subst hc
  simp [Mat.empty]
  omega

/-- After the exception the loop of `GetFaces` does nothing more. -/
theorem GetFaces.foldl_threw {F : Type} [Field F] (atan2 : F → F → F) (cos : F → F)
    (sort : List Rect → List Rect) (eyeCC : Mat → List Rect) (image : Mat)
    (dets : List Rect) (st : GetFaces.Outcome F) (h : st.threw = true) :
    dets.foldl (GetFaces.step atan2 cos sort eyeCC image) st = st := by
  induction dets with
  | nil => rfl
  | cons d ds ih =>
    rw [List.foldl_cons]
    have : GetFaces.step atan2 cos sort eyeCC image st d = st := by
      simp [GetFaces.step, h]
    rw [this, ih]

/-- When every non-empty detection lies inside the image, the loop of `GetFaces` does not
throw; it keeps the faces collected so far and appends, for the detections it visits, the
centers of those that pass both checks, in order. -/
theorem GetFaces.foldl_pos {F : Type} [Field F] (atan2 : F → F → F) (cos : F → F)
    (sort : List Rect → List Rect) (eyeCC : Mat → List Rect) (image : Mat)
    (dets : List Rect) (st : GetFaces.Outcome F) (hst : st.threw = false)
    (hin : ∀ d ∈ dets, d.empty = false → image.contains d = true) :
    (dets.foldl (GetFaces.step atan2 cos sort eyeCC image) st).threw = false ∧
    (dets.foldl (GetFaces.step atan2 cos sort eyeCC image) st).faces.map Face.pos =
      st.faces.map Face.pos ++
        (dets.filter (fun d => !d.empty &&
          ((image.roi d).bind
            (fun crop => TryGetEyes eyeCC sort crop ⟨d.x, d.y⟩)).isSome)).map RectMiddle := by
  induction dets generalizing st with
  | nil => simp [hst]
  | cons d ds ih =>
    rw [List.foldl_cons]
    have hin2 : ∀ d2 ∈ ds, d2.empty = false → image.contains d2 = true :=
      fun d2 h2 => hin d2 (List.mem_cons_of_mem d h2)
    cases he : d.empty with
    | true =>
      have hs : GetFaces.step atan2 cos sort eyeCC image st d = st := by
        simp [GetFaces.step, hst, he]
      rw [hs]
      have := ih st hst hin2
      simpa [List.filter_cons, he] using this
    | false =>
      have hr := Mat.roi_eq_some image d (hin d (List.mem_cons_self d ds) he)
      cases ht : TryGetEyes eyeCC sort
          { rows := d.height.toNat
            cols := d.width.toNat
            pixel := fun i j => image.pixel (d.y.toNat + i) (d.x.toNat + j) } ⟨d.x, d.y⟩ with
      | none =>
        have hs : GetFaces.step atan2 cos sort eyeCC image st d = st := by
          simp [GetFaces.step, hst, he, hr, ht]
        rw [hs]
        have := ih st hst hin2
        simpa [List.filter_cons, he, hr, ht] using this
      | some e =>
        obtain ⟨l, r⟩ := e
        have hs : GetFaces.step atan2 cos sort eyeCC image st d =
            { st with faces := st.faces ++ [GetFaces.pose atan2 cos d l r] } := by
          simp [GetFaces.step, hst, he, hr, ht]
        rw [hs]
        have := ih { st with faces := st.faces ++ [GetFaces.pose atan2 cos d l r] } hst hin2
        simpa [List.filter_cons, he, hr, ht, GetFaces.pose] using this

/-- The loop of `GetFaces` ends by the exception exactly when it started after one or meets
a non-empty detection that does not lie inside the image. -/
theorem GetFaces.foldl_threw_iff {F : Type} [Field F] (atan2 : F → F → F) (cos : F → F)
    (sort : List Rect → List Rect) (eyeCC : Mat → List Rect) (image : Mat)
    (dets : List Rect) (st : GetFaces.Outcome F) :
    (dets.foldl (GetFaces.step atan2 cos sort eyeCC image) st).threw = true ↔
      st.threw = true ∨ ∃ d ∈ dets, d.empty = false ∧ image.contains d = false := by
  induction dets generalizing st with
  | nil => simp
  | cons d ds ih =>
    rw [List.foldl_cons, ih]
    cases hth : st.threw with
    | true => simp [GetFaces.step, hth]
    | false =>
      cases he : d.empty with
      | true => simp [GetFaces.step, hth, he]
      | false =>
        cases hc : image.contains d with
        | false => simp [GetFaces.step, hth, he, Mat.roi_eq_none image d hc, hc]
        | true =>
          rw [show GetFaces.step atan2 cos sort eyeCC image st d =
              (match TryGetEyes eyeCC sort
                  { rows := d.height.toNat
                    cols := d.width.toNat
                    pixel := fun i j => image.pixel (d.y.toNat + i) (d.x.toNat + j) }
                  ⟨d.x, d.y⟩ with
                | none => st
                | some (leftEye, rightEye) =>
                  { st with faces :=
                      st.faces ++ [GetFaces.pose atan2 cos d leftEye rightEye] }) by
            simp [GetFaces.step, hth, he, Mat.roi_eq_some image d hc]]
          split <;> simp [hth, he, hc]

/-- Exactly when `GetFaces` throws: the image is not empty and some non-empty face detection
does not lie inside it. -/
theorem GetFaces_threw_iff {F : Type} [Field F] (atan2 : F → F → F) (cos : F → F)
    (sort : List Rect → List Rect) (faceCC eyeCC : Mat → List Rect) (image : Mat) :
    (GetFaces atan2 cos sort faceCC eyeCC image).threw = true ↔
      image.empty = false ∧ ∃ d ∈ faceCC image, d.empty = false ∧ image.contains d = false := by
  unfold GetFaces
  cases himg : image.empty with
  | true => simp
  | false =>
    simp only [Bool.false_eq_true, if_false, true_and]
    rw [GetFaces.foldl_threw_iff]
    simp

/-- Every face the loop of `GetFaces` holds at its end was there at the start or is the pose
of a non-empty detection inside the image on whose crop `TryGetEyes` succeeded. -/
theorem GetFaces.foldl_mem {F : Type} [Field F] (atan2 : F → F → F) (cos : F → F)
    (sort : List Rect → List Rect) (eyeCC : Mat → List Rect) (image : Mat)
    (dets : List Rect) (st : GetFaces.Outcome F) (face : Face F)
    (h : face ∈ (dets.foldl (GetFaces.step atan2 cos sort eyeCC image) st).faces) :
    face ∈ st.faces ∨ ∃ d ∈ dets, ∃ crop l r, d.empty = false ∧ image.roi d = some crop ∧
      TryGetEyes eyeCC sort crop ⟨d.x, d.y⟩ = some (l, r) ∧
      face = GetFaces.pose atan2 cos d l r := by
  induction dets generalizing st with
  | nil => exact Or.inl (by simpa using h)
  | cons d ds ih =>
    rw [List.foldl_cons] at h
    rcases ih _ h with h1 | ⟨d2, hd2, crop, l, r, h2⟩
    · cases hth : st.threw with
      | true =>
        simp only [GetFaces.step, hth, if_true] at h1
        exact Or.inl h1
      | false =>
        cases he : d.empty with
        | true =>
          simp [GetFaces.step, hth, he] at h1
          exact Or.inl h1
        | false =>
          cases hr : image.roi d with
          | none =>
            simp [GetFaces.step, hth, he, hr] at h1
            exact Or.inl h1
          | some crop =>
            cases ht : TryGetEyes eyeCC sort crop ⟨d.x, d.y⟩ with
            | none =>
              simp [GetFaces.step, hth, he, hr, ht] at h1
              exact Or.inl h1
            | some e =>
              obtain ⟨l, r⟩ := e
              simp [GetFaces.step, hth, he, hr, ht] at h1
              rcases h1 with h3 | h3
              · exact Or.inl h3
              · exact Or.inr ⟨d, List.mem_cons_self d ds, crop, l, r, he, hr, ht, h3⟩
    · exact Or.inr ⟨d2, List.mem_cons_of_mem d hd2, crop, l, r, h2⟩

/-- Every face `GetFaces` puts into `faces` is the pose of a non-empty face detection inside
the image on whose crop `TryGetEyes` succeeded. -/
theorem GetFaces_mem_inv {F : Type} [Field F] (atan2 : F → F → F) (cos : F → F)
    (sort : List Rect → List Rect) (faceCC eyeCC : Mat → List Rect) (image : Mat)
    (face : Face F) (h : face ∈ (GetFaces atan2 cos sort faceCC eyeCC image).faces) :
    ∃ d ∈ faceCC image, ∃ crop l r, d.empty = false ∧ image.roi d = some crop ∧
      TryGetEyes eyeCC sort crop ⟨d.x, d.y⟩ = some (l, r) ∧
      face = GetFaces.pose atan2 cos d l r := by
  unfold GetFaces at h
  cases himg : image.empty with
  | true => simp [himg] at h
  | false =>
    simp only [himg] at h
    rcases GetFaces.foldl_mem atan2 cos sort eyeCC image _ ⟨[], false⟩ face
      (by simpa using h) with h1 | h1
    · simp at h1
    · exact h1

/-- The result of `GetFaces` when the face detector reports a single, non-empty rectangle
inside the image on whose crop `TryGetEyes` succeeds. -/
theorem GetFaces_single {F : Type} [Field F] (atan2 : F → F → F) (cos : F → F)
    (sort : List Rect → List Rect) (faceCC eyeCC : Mat → List Rect) (image : Mat)
    (d : Rect) (l r : Point) (himg : image.empty = false) (hf : faceCC image = [d])
    (hd : d.empty = false)
    (ht : (image.roi d).bind (fun crop => TryGetEyes eyeCC sort crop ⟨d.x, d.y⟩) =
      some (l, r)) :
    GetFaces atan2 cos sort faceCC eyeCC image =
      ⟨[GetFaces.pose atan2 cos d l r], false⟩ := by
  cases hr : image.roi d with
  | none => rw [hr] at ht; exact Option.noConfusion ht
  | some crop =>
    rw [hr] at ht
    have ht2 : TryGetEyes eyeCC sort crop ⟨d.x, d.y⟩ = some (l, r) := ht
    simp [GetFaces, himg, hf, GetFaces.step, hd, hr, ht2]

/-- The result of `GetFaces` when the face detector reports a single, non-empty rectangle
that does not lie inside the image: the crop throws and `faces` stays empty. -/
theorem GetFaces_single_outside {F : Type} [Field F] (atan2 : F → F → F) (cos : F → F)
    (sort : List Rect → List Rect) (faceCC eyeCC : Mat → List Rect) (image : Mat)
    (d : Rect) (himg : image.empty = false) (hf : faceCC image = [d])
    (hd : d.empty = false) (hc : image.contains d = false) :
    GetFaces atan2 cos sort faceCC eyeCC image = ⟨[], true⟩ := by
  simp [GetFaces, himg, hf, GetFaces.step, hd, Mat.roi_eq_none image d hc]

/-- On the crop of a non-empty face detection `TryGetEyes` succeeds exactly when there are
at least two eye detections and the first two after the sort are non-empty: the crop itself
is never empty. -/
theorem TryGetEyes_roi_isSome_iff (eyeCC : Mat → List Rect) (sort : List Rect → List Rect)
    (image : Mat) (d : Rect) (crop : Mat) (hd : d.empty = false)
    (hr : image.roi d = some crop) :
    (TryGetEyes eyeCC sort crop ⟨d.x, d.y⟩).isSome = true ↔
      2 ≤ (eyeCC crop).length ∧
        ∃ d0 d1 rest, sort (eyeCC crop) = d0 :: d1 :: rest ∧
          d0.empty = false ∧ d1.empty = false := by
  constructor
  · intro h
    obtain ⟨⟨l, r⟩, hlr⟩ := Option.isSome_iff_exists.1 h
    obtain ⟨-, hlen, d0, d1, rest, hs, h0, h1, -⟩ :=
      TryGetEyes_some_inv eyeCC sort crop ⟨d.x, d.y⟩ l r hlr
    exact ⟨hlen, d0, d1, rest, hs, h0, h1⟩
  · rintro ⟨hlen, d0, d1, rest, hs, h0, h1⟩
    rw [TryGetEyes_of_sorted eyeCC sort crop ⟨d.x, d.y⟩ d0 d1 rest
      (Mat.roi_not_empty image d crop hr hd) hs hlen]
    by_cases hx : d0.x < d1.x <;> simp [h0, h1, hx]

/-- C1 as stated fails: a non-empty face detection that reaches beyond the frame, with eye
detections that resolve to a pair on any 200x200 crop, gives no face: `image(detection)`
throws and `faces` is empty. The claim asks for one face at `(700, 500)`. -/
theorem GetFaces_pos_counterexample :
    frame.empty = false ∧ faceOut.empty = false ∧ frame.contains faceOut = false ∧
      TryGetEyes (fun _ => eyesPair) stdSort ⟨200, 200, fun _ _ => 0⟩ ⟨600, 400⟩ =
        some (⟨650, 470⟩, ⟨741, 481⟩) ∧
      (GetFaces (fun y x : ℝ => Complex.arg ⟨x, y⟩) Real.cos stdSort
        (fun _ => [faceOut]) (fun _ => eyesPair) frame).threw = true ∧
      (GetFaces (fun y x : ℝ => Complex.arg ⟨x, y⟩) Real.cos stdSort
        (fun _ => [faceOut]) (fun _ => eyesPair) frame).faces = [] := by
  have hg := GetFaces_single_outside (fun y x : ℝ => Complex.arg ⟨x, y⟩) Real.cos stdSort
    (fun _ => [faceOut]) (fun _ => eyesPair) frame faceOut (by decide) rfl (by decide)
    (by decide)
  refine ⟨by decide, by decide, by decide, by decide, ?_, ?_⟩ <;> rw [hg]

/-- C1, amended. On a non-empty frame, when every non-empty face detection lies inside the
frame, `GetFaces` returns (it does not throw) one face for each face detection that is
non-empty and on whose crop the eye detections resolve to a pair, and no other face, in the
order of the face detector; the `pos` of each face is the center
`(x + width/2, y + height/2)` of its rectangle, with truncating division. Resolving to a
pair on the crop of a non-empty detection means: at least two eye detections, the first two
after the sort non-empty. In particular a single face detection whose crop yields a single
eye detection gives no face. -/
theorem GetFaces_pos {F : Type} [Field F] (atan2 : F → F → F) (cos : F → F)
    (sort : List Rect → List Rect) (faceCC eyeCC : Mat → List Rect) (image : Mat)
    (himg : image.empty = false)
    (hin : ∀ d ∈ faceCC image, d.empty = false → image.contains d = true) :
    (GetFaces atan2 cos sort faceCC eyeCC image).threw = false ∧
      (GetFaces atan2 cos sort faceCC eyeCC image).faces.map Face.pos =
        ((faceCC image).filter (fun d => !d.empty &&
          ((image.roi d).bind
            (fun crop => TryGetEyes eyeCC sort crop ⟨d.x, d.y⟩)).isSome)).map
          (fun d => (⟨d.x + d.width.tdiv 2, d.y + d.height.tdiv 2⟩ : Point)) ∧
      (∀ d crop, d.empty = false → image.roi d = some crop →
        ((TryGetEyes eyeCC sort crop ⟨d.x, d.y⟩).isSome = true ↔
          2 ≤ (eyeCC crop).length ∧
            ∃ d0 d1 rest, sort (eyeCC crop) = d0 :: d1 :: rest ∧
              d0.empty = false ∧ d1.empty = false)) ∧
      (∀ d crop, faceCC image = [d] → image.roi d = some crop → (eyeCC crop).length = 1 →
        (GetFaces atan2 cos sort faceCC eyeCC image).faces = []) := by
  have hfold := GetFaces.foldl_pos atan2 cos sort eyeCC image (faceCC image) ⟨[], false⟩
    rfl hin
  refine ⟨?_, ?_, fun d crop hd hr => TryGetEyes_roi_isSome_iff eyeCC sort image d crop hd hr,
    ?_⟩
  · simpa [GetFaces, himg] using hfold.1
  · simpa [GetFaces, himg, RectMiddle] using hfold.2
  · intro d crop hd hr hlen
    have ht : TryGetEyes eyeCC sort crop ⟨d.x, d.y⟩ = none := by
      unfold TryGetEyes
      cases crop.empty <;> simp [hlen]
    cases he : d.empty <;> simp [GetFaces, himg, hd, GetFaces.step, he, hr, ht]

/-- C1 amended, evaluated: of three face detections inside the frame, the second empty and
the third with a single eye detection, only the first yields a face, at the center
`(200, 200)`. -/
theorem GetFaces_pos_witness :
    frame.empty = false ∧
      (∀ d ∈ facesThree, d.empty = false → frame.contains d = true) ∧
      (GetFaces (fun y x : ℝ => Complex.arg ⟨x, y⟩) Real.cos stdSort
        (fun _ => facesThree) eyeCCBySize frame).threw = false ∧
      (GetFaces (fun y x : ℝ => Complex.arg ⟨x, y⟩) Real.cos stdSort
        (fun _ => facesThree) eyeCCBySize frame).faces.map Face.pos = [⟨200, 200⟩] :=
  ⟨by decide, by decide,
   (GetFaces_pos (fun y x : ℝ => Complex.arg ⟨x, y⟩) Real.cos stdSort
      (fun _ => facesThree) eyeCCBySize frame (by decide) (by decide)).1,
   (GetFaces_pos (fun y x : ℝ => Complex.arg ⟨x, y⟩) Real.cos stdSort
      (fun _ => facesThree) eyeCCBySize frame (by decide) (by decide)).2.1.trans (by decide)⟩

/-- C2, evaluated: a single eye detection does not resolve. -/
theorem TryGetEyes_eq_none_iff_witness :
    IsStdSort stdSort ∧ frame.empty = false ∧
      (∀ r ∈ eyesOne, 0 ≤ r.width ∧ 0 ≤ r.height) ∧
      (TryGetEyes (fun _ => eyesOne) stdSort frame ⟨0, 0⟩ = none ↔
        (eyesOne.filter (fun r => !r.empty)).length < 2) :=
  ⟨stdSort_isStdSort, by decide, by decide,
   TryGetEyes_eq_none_iff (fun _ => eyesOne) stdSort frame ⟨0, 0⟩ stdSort_isStdSort
     (by decide) (by decide)⟩

/-- C3, evaluated: detections of areas 100, 200 and 5 give the centers `(20, 5)` and
`(55, 5)` of the rectangles of area 200 and 100; the rectangle of area 5 is not used. -/
theorem TryGetEyes_two_largest_witness :
    IsStdSort stdSort ∧
      TryGetEyes (fun _ => eyesThree) stdSort frame ⟨0, 0⟩ = some (⟨20, 5⟩, ⟨55, 5⟩) ∧
      ∃ p q a b c, eyesThree = a ++ p :: (b ++ q :: c) ∧
        p.empty = false ∧ q.empty = false ∧
        (∀ o ∈ a ++ b ++ c, o.area ≤ p.area ∧ o.area ≤ q.area) ∧
        (((⟨20, 5⟩ : Point) = (RectMiddle p).translate ⟨0, 0⟩ ∧
            (⟨55, 5⟩ : Point) = (RectMiddle q).translate ⟨0, 0⟩) ∨
         ((⟨20, 5⟩ : Point) = (RectMiddle q).translate ⟨0, 0⟩ ∧
            (⟨55, 5⟩ : Point) = (RectMiddle p).translate ⟨0, 0⟩)) :=
  ⟨stdSort_isStdSort, by decide,
   TryGetEyes_two_largest (fun _ => eyesThree) stdSort frame ⟨0, 0⟩ ⟨20, 5⟩ ⟨55, 5⟩
     stdSort_isStdSort (by decide)⟩

/-- C4 as stated fails: for a wide detection at `x = 0` and a narrow one at `x = 10`,
`TryGetEyes` returns `leftEye = (50, 50)` and `rightEye = (25, 15)`, so `leftEye` is the
center with the larger `x`. -/
theorem TryGetEyes_center_order_counterexample :
    TryGetEyes (fun _ => eyesWide) stdSort frame ⟨0, 0⟩ = some (⟨50, 50⟩, ⟨25, 15⟩) ∧
      ¬ ((⟨50, 50⟩ : Point).x ≤ (⟨25, 15⟩ : Point).x) := by
  decide

/-- C4, amended. When `TryGetEyes` succeeds, the two chosen rectangles `d0` and `d1` (the
first two after the sort) are ordered by their `x` field, the left edge: `leftEye` is the
center of `d0` when `d0.x < d1.x` and the center of `d1` otherwise. `leftEye.x <= rightEye.x`
follows when the rectangle of `leftEye` is not wider than the rectangle of `rightEye`. -/
theorem TryGetEyes_left_edge_order (eyeCC : Mat → List Rect) (sort : List Rect → List Rect)
    (image : Mat) (offset l r : Point)
    (h : TryGetEyes eyeCC sort image offset = some (l, r)) :
    ∃ d0 d1 rest, sort (eyeCC image) = d0 :: d1 :: rest ∧
      ((d0.x < d1.x ∧ l = (RectMiddle d0).translate offset ∧
          r = (RectMiddle d1).translate offset ∧ (d0.width ≤ d1.width → l.x ≤ r.x)) ∨
       (d1.x ≤ d0.x ∧ l = (RectMiddle d1).translate offset ∧
          r = (RectMiddle d0).translate offset ∧ (d1.width ≤ d0.width → l.x ≤ r.x))) := by
  obtain ⟨-, -, d0, d1, rest, hs, he0, he1, hlr⟩ :=
    TryGetEyes_some_inv eyeCC sort image offset l r h
  rw [Rect.empty_eq_false_iff] at he0 he1
  have e0 : d0.width.tdiv 2 = d0.width / 2 := Int.tdiv_eq_ediv (by omega) (by omega)
  have e1 : d1.width.tdiv 2 = d1.width / 2 := Int.tdiv_eq_ediv (by omega) (by omega)
  refine ⟨d0, d1, rest, hs, ?_⟩
  rcases hlr with ⟨hx, hl, hr⟩ | ⟨hx, hl, hr⟩
  · refine Or.inl ⟨hx, hl, hr, fun hw => ?_⟩
    rw [hl, hr]
    simp only [Point.translate, RectMiddle, e0, e1]
    omega
  · refine Or.inr ⟨by omega, hl, hr, fun hw => ?_⟩
    rw [hl, hr]
    simp only [Point.translate, RectMiddle, e0, e1]
    omega

/-- C4 amended, evaluated on the detections of areas 100, 200 and 5. -/
theorem TryGetEyes_left_edge_order_witness :
    TryGetEyes (fun _ => eyesThree) stdSort frame ⟨0, 0⟩ = some (⟨20, 5⟩, ⟨55, 5⟩) ∧
    ∃ d0 d1 rest, stdSort eyesThree = d0 :: d1 :: rest ∧
      ((d0.x < d1.x ∧ (⟨20, 5⟩ : Point) = (RectMiddle d0).translate ⟨0, 0⟩ ∧
          (⟨55, 5⟩ : Point) = (RectMiddle d1).translate ⟨0, 0⟩ ∧
          (d0.width ≤ d1.width → (⟨20, 5⟩ : Point).x ≤ (⟨55, 5⟩ : Point).x)) ∨
       (d1.x ≤ d0.x ∧ (⟨20, 5⟩ : Point) = (RectMiddle d1).translate ⟨0, 0⟩ ∧
          (⟨55, 5⟩ : Point) = (RectMiddle d0).translate ⟨0, 0⟩ ∧
          (d1.width ≤ d0.width → (⟨20, 5⟩ : Point).x ≤ (⟨55, 5⟩ : Point).x))) :=
  ⟨by decide,
   TryGetEyes_left_edge_order (fun _ => eyesThree) stdSort frame ⟨0, 0⟩ ⟨20, 5⟩ ⟨55, 5⟩
     (by decide)⟩

/-- C7. For every face `GetFaces` puts into `faces` (so for every face it returns) there is
a non-empty face detection `d`, inside the frame, such that the two eye points are the
crop-local centers `(x + width/2, y + height/2)` of the two chosen eye rectangles of the
crop of `d` (the first two after the sort), one each, moved by the origin `(d.x, d.y)` of
`d`. -/
theorem GetFaces_eyes_full_frame {F : Type} [Field F] (atan2 : F → F → F) (cos : F → F)
    (sort : List Rect → List Rect) (faceCC eyeCC : Mat → List Rect) (image : Mat)
    (face : Face F) (h : face ∈ (GetFaces atan2 cos sort faceCC eyeCC image).faces) :
    ∃ d ∈ faceCC image, d.empty = false ∧ face.pos = RectMiddle d ∧
      ∃ crop, image.roi d = some crop ∧
      ∃ d0 d1 rest, sort (eyeCC crop) = d0 :: d1 :: rest ∧
        ((face.leftEye = ⟨d0.x + d0.width.tdiv 2 + d.x, d0.y + d0.height.tdiv 2 + d.y⟩ ∧
          face.rightEye = ⟨d1.x + d1.width.tdiv 2 + d.x, d1.y + d1.height.tdiv 2 + d.y⟩) ∨
         (face.leftEye = ⟨d1.x + d1.width.tdiv 2 + d.x, d1.y + d1.height.tdiv 2 + d.y⟩ ∧
          face.rightEye = ⟨d0.x + d0.width.tdiv 2 + d.x, d0.y + d0.height.tdiv 2 + d.y⟩)) := by
  obtain ⟨d, hd, crop, l, r, he, hr, ht, hface⟩ :=
    GetFaces_mem_inv atan2 cos sort faceCC eyeCC image face h
  obtain ⟨-, -, d0, d1, rest, hs, -, -, hlr⟩ :=
    TryGetEyes_some_inv eyeCC sort crop ⟨d.x, d.y⟩ l r ht
  refine ⟨d, hd, he, by rw [hface]; rfl, crop, hr, d0, d1, rest, hs, ?_⟩
  have hl : face.leftEye = l := by rw [hface]; rfl
  have hr : face.rightEye = r := by rw [hface]; rfl
  rw [hl, hr]
  rcases hlr with ⟨-, h1, h2⟩ | ⟨-, h1, h2⟩
  · exact Or.inl ⟨h1, h2⟩
  · exact Or.inr ⟨h1, h2⟩

/-- Value of `GetFaces` on the frame with the single face detection `faceRect` and the
stacked eye detections: it returns one face, with both eye points at `x = 160`. -/
theorem GetFaces_stacked :
    GetFaces (fun y x : ℝ => Complex.arg ⟨x, y⟩) Real.cos stdSort
        (fun _ => [faceRect]) (fun _ => eyesStacked) frame =
      ⟨[GetFaces.pose (fun y x : ℝ => Complex.arg ⟨x, y⟩) Real.cos faceRect
        ⟨160, 130⟩ ⟨160, 180⟩], false⟩ :=
  GetFaces_single _ _ stdSort (fun _ => [faceRect]) (fun _ => eyesStacked) frame faceRect
    ⟨160, 130⟩ ⟨160, 180⟩ (by decide) rfl (by decide) (by decide)

/-- Value of `GetFaces` on the frame with the single face detection `faceRect` and the eye
detections `eyesPair`: it returns one face. -/
theorem GetFaces_pair :
    GetFaces (fun y x : ℝ => Complex.arg ⟨x, y⟩) Real.cos stdSort
        (fun _ => [faceRect]) (fun _ => eyesPair) frame =
      ⟨[GetFaces.pose (fun y x : ℝ => Complex.arg ⟨x, y⟩) Real.cos faceRect
        ⟨150, 170⟩ ⟨241, 181⟩], false⟩ :=
  GetFaces_single _ _ stdSort (fun _ => [faceRect]) (fun _ => eyesPair) frame faceRect
    ⟨150, 170⟩ ⟨241, 181⟩ (by decide) rfl (by decide) (by decide)

/-- C7, evaluated: eye rectangles with crop-local centers `(50, 70)` and `(141, 81)` inside
the face detection at `(100, 100)` give the eye points `(150, 170)` and `(241, 181)`; the
call returns. -/
theorem GetFaces_eyes_full_frame_witness :
    (GetFaces (fun y x : ℝ => Complex.arg ⟨x, y⟩) Real.cos stdSort
        (fun _ => [faceRect]) (fun _ => eyesPair) frame).threw = false ∧
    ∃ face ∈ (GetFaces (fun y x : ℝ => Complex.arg ⟨x, y⟩) Real.cos stdSort
        (fun _ => [faceRect]) (fun _ => eyesPair) frame).faces,
      face.leftEye = ⟨150, 170⟩ ∧ face.rightEye = ⟨241, 181⟩ ∧
      ∃ d ∈ [faceRect], d.empty = false ∧ face.pos = RectMiddle d ∧
        ∃ crop, frame.roi d = some crop ∧
        ∃ d0 d1 rest, stdSort eyesPair = d0 :: d1 :: rest ∧
          ((face.leftEye = ⟨d0.x + d0.width.tdiv 2 + d.x, d0.y + d0.height.tdiv 2 + d.y⟩ ∧
            face.rightEye = ⟨d1.x + d1.width.tdiv 2 + d.x, d1.y + d1.height.tdiv 2 + d.y⟩) ∨
           (face.leftEye = ⟨d1.x + d1.width.tdiv 2 + d.x, d1.y + d1.height.tdiv 2 + d.y⟩ ∧
            face.rightEye =
              ⟨d0.x + d0.width.tdiv 2 + d.x, d0.y + d0.height.tdiv 2 + d.y⟩)) := by
  have hmem : GetFaces.pose (fun y x : ℝ => Complex.arg ⟨x, y⟩) Real.cos faceRect
      ⟨150, 170⟩ ⟨241, 181⟩ ∈ (GetFaces (fun y x : ℝ => Complex.arg ⟨x, y⟩) Real.cos stdSort
        (fun _ => [faceRect]) (fun _ => eyesPair) frame).faces := by
    rw [GetFaces_pair]; exact List.mem_singleton.2 rfl
  exact ⟨by rw [GetFaces_pair], _, hmem, rfl, rfl,
    GetFaces_eyes_full_frame (fun y x : ℝ => Complex.arg ⟨x, y⟩) Real.cos stdSort
      (fun _ => [faceRect]) (fun _ => eyesPair) frame _ hmem⟩

/-! ## Tilt and width over the reals

From here on `float` is `ℝ`, `std::cos` is `Real.cos` and `std::atan2 y x` is
`Complex.arg ⟨x, y⟩`. -/

/-- The exact two-argument arctangent on the arguments `GetFaces` passes (`0 ≤ x`): it is
`arctan (y / x)` for `0 < x`, and `π/2`, `0` or `-π/2` on the vertical axis, by the sign
of `y`. -/
theorem atan2_values (x y : ℝ) :
    (0 < x → Complex.arg ⟨x, y⟩ = Real.arctan (y / x)) ∧
    (0 < y → Complex.arg ⟨0, y⟩ = Real.pi / 2) ∧
    (y < 0 → Complex.arg ⟨0, y⟩ = -(Real.pi / 2)) ∧
    Complex.arg ⟨0, 0⟩ = 0 := by
  refine ⟨fun hx => ?_, fun hy => ?_, fun hy => ?_, ?_⟩
  · have habs : |Complex.arg ⟨x, y⟩| < Real.pi / 2 :=
      Complex.abs_arg_lt_pi_div_two_iff.2 (Or.inl hx)
    rw [abs_lt] at habs
    have ht : Real.tan (Complex.arg ⟨x, y⟩) = y / x := Complex.tan_arg ⟨x, y⟩
    rw [← ht, Real.arctan_tan habs.1 habs.2]
  · have e : (⟨0, y⟩ : ℂ) = ((y : ℝ) : ℂ) * Complex.I := by
      apply Complex.ext <;> simp
    rw [e, Complex.arg_real_mul _ hy, Complex.arg_I]
  · have e : (⟨0, y⟩ : ℂ) = (((-y : ℝ)) : ℂ) * (-Complex.I) := by
      apply Complex.ext <;> simp
    rw [e, Complex.arg_real_mul _ (by linarith), Complex.arg_neg_I]
  · exact Complex.arg_zero

theorem GetFaces.tilt_of_lt (l r : Point) (h : l.x < r.x) :
    GetFaces.tilt (fun y x : ℝ => Complex.arg ⟨x, y⟩) l r =
      Complex.arg ⟨((r.x - l.x : Int) : ℝ), ((r.y - l.y : Int) : ℝ)⟩ := by
  unfold GetFaces.tilt
  rw [if_pos h]

theorem GetFaces.tilt_of_not_lt (l r : Point) (h : ¬ l.x < r.x) :
    GetFaces.tilt (fun y x : ℝ => Complex.arg ⟨x, y⟩) l r =
      Complex.arg ⟨((l.x - r.x : Int) : ℝ), ((l.y - r.y : Int) : ℝ)⟩ := by
  unfold GetFaces.tilt
  rw [if_neg h]

/-- The tilt of two points on a vertical line, `leftEye` above `rightEye`, is `-π/2`. -/
theorem GetFaces.tilt_vertical (l r : Point) (hx : l.x = r.x) (hy : l.y < r.y) :
    GetFaces.tilt (fun y x : ℝ => Complex.arg ⟨x, y⟩) l r = -(Real.pi / 2) := by
  rw [GetFaces.tilt_of_not_lt l r (by omega)]
  have e : ((l.x - r.x : Int) : ℝ) = 0 := by
    have : l.x - r.x = 0 := by omega
    rw [this]; simp
  rw [e]
  exact (atan2_values 0 _).2.2.1 (by exact_mod_cast (show l.y - r.y < 0 by omega))

/-- The tilt lies in `[-π/2, π/2]`, and is `-π/2` only for points on a vertical line with
`leftEye` above `rightEye`. -/
theorem GetFaces.tilt_range (l r : Point) :
    -(Real.pi / 2) ≤ GetFaces.tilt (fun y x : ℝ => Complex.arg ⟨x, y⟩) l r ∧
    GetFaces.tilt (fun y x : ℝ => Complex.arg ⟨x, y⟩) l r ≤ Real.pi / 2 ∧
    (-(Real.pi / 2) < GetFaces.tilt (fun y x : ℝ => Complex.arg ⟨x, y⟩) l r ↔
      ¬ (l.x = r.x ∧ l.y < r.y)) := by
  by_cases h : l.x < r.x
  · rw [GetFaces.tilt_of_lt l r h]
    have hre : (0 : ℝ) < ((r.x - l.x : Int) : ℝ) := by exact_mod_cast (show 0 < r.x - l.x by omega)
    refine ⟨?_, ?_, ?_⟩
    · exact Complex.neg_pi_div_two_le_arg_iff.2 (Or.inl hre.le)
    · exact Complex.arg_le_pi_div_two_iff.2 (Or.inl hre.le)
    · rw [Complex.neg_pi_div_two_lt_arg_iff]
      constructor
      · intro _ hc; omega
      · intro _; exact Or.inl hre
  · rw [GetFaces.tilt_of_not_lt l r h]
    have hre : (0 : ℝ) ≤ ((l.x - r.x : Int) : ℝ) := by exact_mod_cast (show 0 ≤ l.x - r.x by omega)
    refine ⟨?_, ?_, ?_⟩
    · exact Complex.neg_pi_div_two_le_arg_iff.2 (Or.inl hre)
    · exact Complex.arg_le_pi_div_two_iff.2 (Or.inl hre)
    · rw [Complex.neg_pi_div_two_lt_arg_iff]
      constructor
      · rintro (h1 | h1) ⟨hx, hy⟩
        · have h2 : (0 : ℝ) < ((l.x - r.x : Int) : ℝ) := h1
          have h3 : (0 : Int) < l.x - r.x := by exact_mod_cast h2
          omega
        · have h2 : (0 : ℝ) ≤ ((l.y - r.y : Int) : ℝ) := h1
          have h3 : (0 : Int) ≤ l.y - r.y := by exact_mod_cast h2
          omega
      · intro hn
        by_cases hx : l.x = r.x
        · right
          have : (0 : Int) ≤ l.y - r.y := by
            have := fun hy => hn ⟨hx, hy⟩
            omega
          show (0 : ℝ) ≤ ((l.y - r.y : Int) : ℝ)
          exact_mod_cast this
        · left
          show (0 : ℝ) < ((l.x - r.x : Int) : ℝ)
          exact_mod_cast (show (0 : Int) < l.x - r.x by omega)

/-- The cosine of the tilt is positive unless the two points lie on a vertical line at
different heights, in which case it is zero. -/
theorem GetFaces.cos_tilt (l r : Point) :
    (l.x ≠ r.x ∨ l.y = r.y →
      0 < Real.cos (GetFaces.tilt (fun y x : ℝ => Complex.arg ⟨x, y⟩) l r)) ∧
    (l.x = r.x ∧ l.y ≠ r.y →
      Real.cos (GetFaces.tilt (fun y x : ℝ => Complex.arg ⟨x, y⟩) l r) = 0) := by
  constructor
  · intro hne
    have habs : |GetFaces.tilt (fun y x : ℝ => Complex.arg ⟨x, y⟩) l r| < Real.pi / 2 := by
      by_cases h : l.x < r.x
      · rw [GetFaces.tilt_of_lt l r h, Complex.abs_arg_lt_pi_div_two_iff]
        left
        show (0 : ℝ) < ((r.x - l.x : Int) : ℝ)
        exact_mod_cast (show 0 < r.x - l.x by omega)
      · rw [GetFaces.tilt_of_not_lt l r h, Complex.abs_arg_lt_pi_div_two_iff]
        by_cases hx : l.x = r.x
        · right
          have hy : l.y = r.y := by
            rcases hne with h1 | h1
            · exact absurd hx h1
            · exact h1
          apply Complex.ext <;> simp [hx, hy]
        · left
          show (0 : ℝ) < ((l.x - r.x : Int) : ℝ)
          exact_mod_cast (show (0 : Int) < l.x - r.x by omega)
    rw [abs_lt] at habs
    exact Real.cos_pos_of_mem_Ioo ⟨habs.1, habs.2⟩
  · rintro ⟨hx, hy⟩
    rw [GetFaces.tilt_of_not_lt l r (by omega)]
    have e : ((l.x - r.x : Int) : ℝ) = 0 := by
      have : l.x - r.x = 0 := by omega
      rw [this]; simp
    rw [e]
    rcases lt_or_gt_of_ne hy with h1 | h1
    · rw [(atan2_values 0 _).2.2.1 (by exact_mod_cast (show l.y - r.y < 0 by omega))]
      simp
    · rw [(atan2_values 0 _).2.1 (by exact_mod_cast (show 0 < l.y - r.y by omega))]
      simp

/-- C5 as stated fails: two eye detections stacked above one another give a face with
`tiltRads = -π/2`, which is outside the half-open interval `(-π/2, π/2]`. -/
theorem GetFaces_tilt_counterexample :
    (GetFaces (fun y x : ℝ => Complex.arg ⟨x, y⟩) Real.cos stdSort
        (fun _ => [faceRect]) (fun _ => eyesStacked) frame).threw = false ∧
    ∃ face ∈ (GetFaces (fun y x : ℝ => Complex.arg ⟨x, y⟩) Real.cos stdSort
        (fun _ => [faceRect]) (fun _ => eyesStacked) frame).faces,
      face.leftEye = ⟨160, 130⟩ ∧ face.rightEye = ⟨160, 180⟩ ∧
      face.tiltRads = -(Real.pi / 2) ∧
      ¬ (-(Real.pi / 2) < face.tiltRads ∧ face.tiltRads ≤ Real.pi / 2) := by
  refine ⟨by rw [GetFaces_stacked], _,
    by rw [GetFaces_stacked]; exact List.mem_singleton.2 rfl, rfl, rfl, ?_⟩
  have ht : (GetFaces.pose (fun y x : ℝ => Complex.arg ⟨x, y⟩) Real.cos faceRect
      ⟨160, 130⟩ ⟨160, 180⟩).tiltRads = -(Real.pi / 2) :=
    GetFaces.tilt_vertical ⟨160, 130⟩ ⟨160, 180⟩ (by decide) (by decide)
  refine ⟨ht, ?_⟩
  rw [ht]
  exact fun h => lt_irrefl _ h.1

/-- C5, amended. For every face `GetFaces` puts into `faces` (so for every face it
returns), `tiltRads` lies in the closed
interval `[-π/2, π/2]`; it is greater than `-π/2` unless the two eye points have the same
`x` and `leftEye` is above `rightEye`. -/
theorem GetFaces_tilt_range (sort : List Rect → List Rect) (faceCC eyeCC : Mat → List Rect)
    (image : Mat) (face : Face ℝ)
    (h : face ∈ (GetFaces (fun y x : ℝ => Complex.arg ⟨x, y⟩) Real.cos sort faceCC eyeCC
      image).faces) :
    -(Real.pi / 2) ≤ face.tiltRads ∧ face.tiltRads ≤ Real.pi / 2 ∧
      (-(Real.pi / 2) < face.tiltRads ↔
        ¬ (face.leftEye.x = face.rightEye.x ∧ face.leftEye.y < face.rightEye.y)) := by
  obtain ⟨d, -, crop, l, r, -, -, -, hface⟩ :=
    GetFaces_mem_inv _ _ sort faceCC eyeCC image face h
  rw [hface]
  exact GetFaces.tilt_range l r

/-- C5 amended, evaluated on the face of `GetFaces_pair`. -/
theorem GetFaces_tilt_range_witness :
    ∃ face ∈ (GetFaces (fun y x : ℝ => Complex.arg ⟨x, y⟩) Real.cos stdSort
        (fun _ => [faceRect]) (fun _ => eyesPair) frame).faces,
      -(Real.pi / 2) ≤ face.tiltRads ∧ face.tiltRads ≤ Real.pi / 2 ∧
      (-(Real.pi / 2) < face.tiltRads ↔
        ¬ (face.leftEye.x = face.rightEye.x ∧ face.leftEye.y < face.rightEye.y)) := by
  have hmem : GetFaces.pose (fun y x : ℝ => Complex.arg ⟨x, y⟩) Real.cos faceRect
      ⟨150, 170⟩ ⟨241, 181⟩ ∈ (GetFaces (fun y x : ℝ => Complex.arg ⟨x, y⟩) Real.cos stdSort
        (fun _ => [faceRect]) (fun _ => eyesPair) frame).faces := by
    rw [GetFaces_pair]; exact List.mem_singleton.2 rfl
  exact ⟨_, hmem, GetFaces_tilt_range stdSort (fun _ => [faceRect]) (fun _ => eyesPair)
    frame _ hmem⟩

/-- C6 as stated fails: for two eye detections stacked above one another the cosine of the
tilt is zero, the width is a quotient by zero, and it is not positive. -/
theorem GetFaces_width_counterexample :
    (GetFaces (fun y x : ℝ => Complex.arg ⟨x, y⟩) Real.cos stdSort
        (fun _ => [faceRect]) (fun _ => eyesStacked) frame).threw = false ∧
    ∃ face ∈ (GetFaces (fun y x : ℝ => Complex.arg ⟨x, y⟩) Real.cos stdSort
        (fun _ => [faceRect]) (fun _ => eyesStacked) frame).faces,
      face.leftEye = ⟨160, 130⟩ ∧ face.rightEye = ⟨160, 180⟩ ∧
      Real.cos face.tiltRads = 0 ∧ ¬ (0 < face.width) := by
  refine ⟨by rw [GetFaces_stacked], _,
    by rw [GetFaces_stacked]; exact List.mem_singleton.2 rfl, rfl, rfl, ?_⟩
  have hc : Real.cos (GetFaces.pose (fun y x : ℝ => Complex.arg ⟨x, y⟩) Real.cos faceRect
      ⟨160, 130⟩ ⟨160, 180⟩).tiltRads = 0 :=
    (GetFaces.cos_tilt ⟨160, 130⟩ ⟨160, 180⟩).2 ⟨by decide, by decide⟩
  refine ⟨hc, ?_⟩
  have hw : (GetFaces.pose (fun y x : ℝ => Complex.arg ⟨x, y⟩) Real.cos faceRect
      ⟨160, 130⟩ ⟨160, 180⟩).width =
      ((faceRect.width : ℝ) / Real.cos (GetFaces.pose (fun y x : ℝ => Complex.arg ⟨x, y⟩)
        Real.cos faceRect ⟨160, 130⟩ ⟨160, 180⟩).tiltRads) * 0.5 := rfl
  rw [hw, hc]
  simp

/-- C6, amended. For every face `GetFaces` puts into `faces` (so for every face it
returns) whose two eye points have different
`x`, or are the same point, `width > 0`. -/
theorem GetFaces_width_pos (sort : List Rect → List Rect) (faceCC eyeCC : Mat → List Rect)
    (image : Mat) (face : Face ℝ)
    (h : face ∈ (GetFaces (fun y x : ℝ => Complex.arg ⟨x, y⟩) Real.cos sort faceCC eyeCC
      image).faces)
    (hne : face.leftEye.x ≠ face.rightEye.x ∨ face.leftEye.y = face.rightEye.y) :
    0 < face.width := by
  obtain ⟨d, -, crop, l, r, hd, -, -, hface⟩ :=
    GetFaces_mem_inv _ _ sort faceCC eyeCC image face h
  rw [hface] at hne ⊢
  have hcos := (GetFaces.cos_tilt l r).1 hne
  rw [Rect.empty_eq_false_iff] at hd
  have hW : (0 : ℝ) < (d.width : ℝ) := by exact_mod_cast hd.1
  show 0 < ((d.width : ℝ) /
    Real.cos (GetFaces.tilt (fun y x : ℝ => Complex.arg ⟨x, y⟩) l r)) * 0.5
  exact mul_pos (div_pos hW hcos) (by norm_num)

/-- C6 amended, evaluated on the face of `GetFaces_pair`. -/
theorem GetFaces_width_pos_witness :
    ∃ face ∈ (GetFaces (fun y x : ℝ => Complex.arg ⟨x, y⟩) Real.cos stdSort
        (fun _ => [faceRect]) (fun _ => eyesPair) frame).faces,
      (face.leftEye.x ≠ face.rightEye.x ∨ face.leftEye.y = face.rightEye.y) ∧
      0 < face.width := by
  have hmem : GetFaces.pose (fun y x : ℝ => Complex.arg ⟨x, y⟩) Real.cos faceRect
      ⟨150, 170⟩ ⟨241, 181⟩ ∈ (GetFaces (fun y x : ℝ => Complex.arg ⟨x, y⟩) Real.cos stdSort
        (fun _ => [faceRect]) (fun _ => eyesPair) frame).faces := by
    rw [GetFaces_pair]; exact List.mem_singleton.2 rfl
  have hne : (GetFaces.pose (fun y x : ℝ => Complex.arg ⟨x, y⟩) Real.cos faceRect
      ⟨150, 170⟩ ⟨241, 181⟩).leftEye.x ≠ (GetFaces.pose (fun y x : ℝ => Complex.arg ⟨x, y⟩)
      Real.cos faceRect ⟨150, 170⟩ ⟨241, 181⟩).rightEye.x := by
    show (150 : Int) ≠ 241
    decide
  exact ⟨_, hmem, Or.inl hne, GetFaces_width_pos stdSort (fun _ => [faceRect])
    (fun _ => eyesPair) frame _ hmem (Or.inl hne)⟩

/-- The sign of the exact arctangent in the right half-plane is the sign of `y`. -/
theorem atan2_sign (x y : ℝ) (hx : 0 ≤ x) :
    (0 < Complex.arg ⟨x, y⟩ ↔ 0 < y) ∧ (Complex.arg ⟨x, y⟩ = 0 ↔ y = 0) ∧
      (Complex.arg ⟨x, y⟩ < 0 ↔ y < 0) := by
  have h0 : Complex.arg ⟨x, y⟩ = 0 ↔ y = 0 := by
    rw [Complex.arg_eq_zero_iff]
    exact ⟨fun h => h.2, fun h => ⟨hx, h⟩⟩
  have hneg : Complex.arg ⟨x, y⟩ < 0 ↔ y < 0 := Complex.arg_neg_iff
  refine ⟨?_, h0, hneg⟩
  constructor
  · intro h
    rcases lt_trichotomy y 0 with h1 | h1 | h1
    · exact absurd (hneg.2 h1) (not_lt.2 h.le)
    · exact absurd (h0.2 h1) (ne_of_gt h)
    · exact h1
  · intro h
    rcases lt_trichotomy (Complex.arg ⟨x, y⟩) 0 with h1 | h1 | h1
    · exact absurd (hneg.1 h1) (not_lt.2 h.le)
    · exact absurd (h0.1 h1) (ne_of_gt h)
    · exact h1

theorem width_algebra (W dx S : ℝ) (hdx : 0 < dx) (hS : 0 < S) :
    (W / (dx / S)) * 0.5 = W * S / (2 * dx) := by
  have h1 : dx ≠ 0 := ne_of_gt hdx
  have h2 : S ≠ 0 := ne_of_gt hS
  field_simp
  norm_num
  ring

/-- C8. For a face rectangle of width `W` and two eye points `a` and `b` with
`a.x < b.x`, under either labelling of the two points as left and right, the pose of
`GetFaces` has `tiltRads = atan2(dy, dx)` for `(dx, dy) = b - a`, and
`width = (W / cos(tiltRads)) * 0.5 = W * sqrt(dx^2 + dy^2) / (2 * dx)`. The formulas do not
need the rectangle to be non-empty. -/
theorem GetFaces.pose_formula (detection : Rect) (a b : Point) (hx : a.x < b.x) :
    ∀ face ∈ [GetFaces.pose (fun y x : ℝ => Complex.arg ⟨x, y⟩) Real.cos detection a b,
        GetFaces.pose (fun y x : ℝ => Complex.arg ⟨x, y⟩) Real.cos detection b a],
      face.tiltRads = Complex.arg ⟨((b.x - a.x : Int) : ℝ), ((b.y - a.y : Int) : ℝ)⟩ ∧
      face.width = ((detection.width : ℝ) / Real.cos face.tiltRads) * 0.5 ∧
      face.width = (detection.width : ℝ) *
        Real.sqrt (((b.x - a.x : Int) : ℝ) ^ 2 + ((b.y - a.y : Int) : ℝ) ^ 2) /
          (2 * ((b.x - a.x : Int) : ℝ)) := by
  have hdx : (0 : ℝ) < ((b.x - a.x : Int) : ℝ) := by exact_mod_cast (show 0 < b.x - a.x by omega)
  have hz : (⟨((b.x - a.x : Int) : ℝ), ((b.y - a.y : Int) : ℝ)⟩ : ℂ) ≠ 0 := by
    intro hc
    have := congrArg Complex.re hc
    simp only [Complex.zero_re] at this
    exact absurd this (ne_of_gt hdx)
  have habs : Complex.abs ⟨((b.x - a.x : Int) : ℝ), ((b.y - a.y : Int) : ℝ)⟩ =
      Real.sqrt (((b.x - a.x : Int) : ℝ) ^ 2 + ((b.y - a.y : Int) : ℝ) ^ 2) := by
    rw [Complex.abs_apply, Complex.normSq_mk]
    congr 1
    ring
  have hS : 0 < Real.sqrt (((b.x - a.x : Int) : ℝ) ^ 2 + ((b.y - a.y : Int) : ℝ) ^ 2) :=
    Real.sqrt_pos.2 (by positivity)
  have hcos : Real.cos (Complex.arg ⟨((b.x - a.x : Int) : ℝ), ((b.y - a.y : Int) : ℝ)⟩) =
      ((b.x - a.x : Int) : ℝ) /
        Real.sqrt (((b.x - a.x : Int) : ℝ) ^ 2 + ((b.y - a.y : Int) : ℝ) ^ 2) := by
    rw [Complex.cos_arg hz, habs]
  have key : ∀ l r : Point,
      GetFaces.tilt (fun y x : ℝ => Complex.arg ⟨x, y⟩) l r =
        Complex.arg ⟨((b.x - a.x : Int) : ℝ), ((b.y - a.y : Int) : ℝ)⟩ →
      (GetFaces.pose (fun y x : ℝ => Complex.arg ⟨x, y⟩) Real.cos detection l r).tiltRads =
        Complex.arg ⟨((b.x - a.x : Int) : ℝ), ((b.y - a.y : Int) : ℝ)⟩ ∧
      (GetFaces.pose (fun y x : ℝ => Complex.arg ⟨x, y⟩) Real.cos detection l r).width =
        ((detection.width : ℝ) / Real.cos (GetFaces.pose (fun y x : ℝ => Complex.arg ⟨x, y⟩)
          Real.cos detection l r).tiltRads) * 0.5 ∧
      (GetFaces.pose (fun y x : ℝ => Complex.arg ⟨x, y⟩) Real.cos detection l r).width =
        (detection.width : ℝ) *
          Real.sqrt (((b.x - a.x : Int) : ℝ) ^ 2 + ((b.y - a.y : Int) : ℝ) ^ 2) /
            (2 * ((b.x - a.x : Int) : ℝ)) := by
    intro l r ht
    refine ⟨ht, rfl, ?_⟩
    show ((detection.width : ℝ) /
      Real.cos (GetFaces.tilt (fun y x : ℝ => Complex.arg ⟨x, y⟩) l r)) * 0.5 = _
    rw [ht, hcos]
    exact width_algebra _ _ _ hdx hS
  intro face hface
  rcases List.mem_cons.1 hface with h1 | h1
  · rw [h1]
    exact key a b (GetFaces.tilt_of_lt a b hx)
  · rw [List.mem_singleton.1 h1]
    exact key b a (GetFaces.tilt_of_not_lt b a (by omega))

/-- C8, evaluated: on a face rectangle of width 40, the eyes `(10, 10)` and `(30, 10)` give
`tiltRads = 0` and `width = 20`; the eyes `(10, 10)` and `(30, 20)` give
`tiltRads = atan2(10, 20) = arctan (1/2)` and `width = 10 * sqrt 5`. -/
theorem GetFaces.pose_formula_witness :
    (⟨10, 10⟩ : Point).x < (⟨30, 10⟩ : Point).x ∧
    (GetFaces.pose (fun y x : ℝ => Complex.arg ⟨x, y⟩) Real.cos ⟨0, 0, 40, 40⟩
      ⟨10, 10⟩ ⟨30, 10⟩).tiltRads = 0 ∧
    (GetFaces.pose (fun y x : ℝ => Complex.arg ⟨x, y⟩) Real.cos ⟨0, 0, 40, 40⟩
      ⟨10, 10⟩ ⟨30, 10⟩).width = 20 ∧
    (GetFaces.pose (fun y x : ℝ => Complex.arg ⟨x, y⟩) Real.cos ⟨0, 0, 40, 40⟩
      ⟨10, 10⟩ ⟨30, 20⟩).tiltRads = Complex.arg ⟨20, 10⟩ ∧
    (GetFaces.pose (fun y x : ℝ => Complex.arg ⟨x, y⟩) Real.cos ⟨0, 0, 40, 40⟩
      ⟨10, 10⟩ ⟨30, 20⟩).tiltRads = Real.arctan (1 / 2) ∧
    (GetFaces.pose (fun y x : ℝ => Complex.arg ⟨x, y⟩) Real.cos ⟨0, 0, 40, 40⟩
      ⟨10, 10⟩ ⟨30, 20⟩).width = 10 * Real.sqrt 5 := by
  obtain ⟨t1, -, w1⟩ := GetFaces.pose_formula ⟨0, 0, 40, 40⟩ ⟨10, 10⟩ ⟨30, 10⟩ (by decide) _
    (List.mem_cons_self _ _)
  obtain ⟨t2, -, w2⟩ := GetFaces.pose_formula ⟨0, 0, 40, 40⟩ ⟨10, 10⟩ ⟨30, 20⟩ (by decide) _
    (List.mem_cons_self _ _)
  have e20 : (((⟨30, 10⟩ : Point).x - (⟨10, 10⟩ : Point).x : Int) : ℝ) = 20 := by norm_num
  have e0 : (((⟨30, 10⟩ : Point).y - (⟨10, 10⟩ : Point).y : Int) : ℝ) = 0 := by norm_num
  have f20 : (((⟨30, 20⟩ : Point).x - (⟨10, 10⟩ : Point).x : Int) : ℝ) = 20 := by norm_num
  have f10 : (((⟨30, 20⟩ : Point).y - (⟨10, 10⟩ : Point).y : Int) : ℝ) = 10 := by norm_num
  have eW : (((⟨0, 0, 40, 40⟩ : Rect).width : Int) : ℝ) = 40 := by norm_num
  rw [e20, e0] at t1 w1
  rw [f20, f10] at t2 w2
  rw [eW] at w1 w2
  have s1 : Real.sqrt ((20 : ℝ) ^ 2 + 0 ^ 2) = 20 := by
    rw [show ((20 : ℝ) ^ 2 + 0 ^ 2) = 20 ^ 2 by norm_num]
    exact Real.sqrt_sq (by norm_num)
  have s2 : Real.sqrt ((20 : ℝ) ^ 2 + 10 ^ 2) = 10 * Real.sqrt 5 := by
    rw [show ((20 : ℝ) ^ 2 + 10 ^ 2) = 10 ^ 2 * 5 by norm_num,
      Real.sqrt_mul (by norm_num), Real.sqrt_sq (by norm_num)]
  refine ⟨by decide, ?_, ?_, t2, ?_, ?_⟩
  · rw [t1]
    exact (atan2_sign 20 0 (by norm_num)).2.1.2 rfl
  · rw [w1, s1]
    norm_num
  · rw [t2, (atan2_values 20 10).1 (by norm_num)]
    norm_num
  · rw [w2, s2]
    ring

/-- C9 as stated fails: for the level eyes `(10, 10)` and `(30, 10)` the right eye is not
lower than the left one, and the tilt is `0`, not negative. -/
theorem GetFaces.tilt_sign_counterexample :
    GetFaces.tilt (fun y x : ℝ => Complex.arg ⟨x, y⟩) ⟨10, 10⟩ ⟨30, 10⟩ = 0 ∧
      ¬ ((⟨30, 10⟩ : Point).y > (⟨10, 10⟩ : Point).y) ∧
      ¬ (GetFaces.tilt (fun y x : ℝ => Complex.arg ⟨x, y⟩) ⟨10, 10⟩ ⟨30, 10⟩ < 0) := by
  have h0 : GetFaces.tilt (fun y x : ℝ => Complex.arg ⟨x, y⟩) ⟨10, 10⟩ ⟨30, 10⟩ = 0 := by
    rw [GetFaces.tilt_of_lt _ _ (by decide)]
    exact (atan2_sign _ _ (by norm_num)).2.1.2 (by norm_num)
  refine ⟨h0, by decide, ?_⟩
  rw [h0]
  exact lt_irrefl 0

/-- C9, amended. The sign of the tilt is the sign of the difference of the `y` coordinates,
taken from the point of smaller `x` to the other: when `leftEye.x < rightEye.x` the tilt is
positive, zero or negative as `rightEye` is lower than, level with or higher than
`leftEye`; otherwise (`rightEye.x <= leftEye.x`) it is positive, zero or negative as
`leftEye` is lower than, level with or higher than `rightEye`. -/
theorem GetFaces.tilt_sign (l r : Point) :
    (l.x < r.x →
      (0 < GetFaces.tilt (fun y x : ℝ => Complex.arg ⟨x, y⟩) l r ↔ l.y < r.y) ∧
      (GetFaces.tilt (fun y x : ℝ => Complex.arg ⟨x, y⟩) l r = 0 ↔ l.y = r.y) ∧
      (GetFaces.tilt (fun y x : ℝ => Complex.arg ⟨x, y⟩) l r < 0 ↔ r.y < l.y)) ∧
    (r.x ≤ l.x →
      (0 < GetFaces.tilt (fun y x : ℝ => Complex.arg ⟨x, y⟩) l r ↔ r.y < l.y) ∧
      (GetFaces.tilt (fun y x : ℝ => Complex.arg ⟨x, y⟩) l r = 0 ↔ l.y = r.y) ∧
      (GetFaces.tilt (fun y x : ℝ => Complex.arg ⟨x, y⟩) l r < 0 ↔ l.y < r.y)) := by
  constructor
  · intro h
    rw [GetFaces.tilt_of_lt l r h]
    obtain ⟨h1, h2, h3⟩ := atan2_sign ((r.x - l.x : Int) : ℝ) ((r.y - l.y : Int) : ℝ)
      (by exact_mod_cast (show (0 : Int) ≤ r.x - l.x by omega))
    refine ⟨h1.trans ?_, h2.trans ?_, h3.trans ?_⟩
    · rw [Int.cast_pos]; omega
    · rw [Int.cast_eq_zero]; omega
    · rw [Int.cast_lt_zero]; omega
  · intro h
    rw [GetFaces.tilt_of_not_lt l r (by omega)]
    obtain ⟨h1, h2, h3⟩ := atan2_sign ((l.x - r.x : Int) : ℝ) ((l.y - r.y : Int) : ℝ)
      (by exact_mod_cast (show (0 : Int) ≤ l.x - r.x by omega))
    refine ⟨h1.trans ?_, h2.trans ?_, h3.trans ?_⟩
    · rw [Int.cast_pos]; omega
    · rw [Int.cast_eq_zero]; omega
    · rw [Int.cast_lt_zero]; omega

/-- C9 amended, evaluated: for the eyes `(10, 10)` and `(30, 20)` the tilt is positive. -/
theorem GetFaces.tilt_sign_witness :
    (⟨10, 10⟩ : Point).x < (⟨30, 20⟩ : Point).x ∧
      (⟨10, 10⟩ : Point).y < (⟨30, 20⟩ : Point).y ∧
      0 < GetFaces.tilt (fun y x : ℝ => Complex.arg ⟨x, y⟩) ⟨10, 10⟩ ⟨30, 20⟩ :=
  ⟨by decide, by decide,
   ((GetFaces.tilt_sign ⟨10, 10⟩ ⟨30, 20⟩).1 (by decide)).1.2 (by decide)⟩

/-- The exact arctangent on the vertical axis is odd. -/
theorem atan2_vertical_neg (y : ℝ) : Complex.arg ⟨0, -y⟩ = -Complex.arg ⟨0, y⟩ := by
  rcases lt_trichotomy y 0 with h | h | h
  · rw [(atan2_values 0 (-y)).2.1 (by linarith), (atan2_values 0 y).2.2.1 h]
    ring
  · subst h
    simp [(atan2_values 0 0).2.2.2]
  · rw [(atan2_values 0 (-y)).2.2.1 (by linarith), (atan2_values 0 y).2.1 h]

/-- C10 as stated fails: for the points `(160, 130)` and `(160, 180)` the tilt is `-π/2`
under one labelling and `π/2` under the other. -/
theorem GetFaces.tilt_swap_counterexample :
    GetFaces.tilt (fun y x : ℝ => Complex.arg ⟨x, y⟩) ⟨160, 130⟩ ⟨160, 180⟩ =
        -(Real.pi / 2) ∧
      GetFaces.tilt (fun y x : ℝ => Complex.arg ⟨x, y⟩) ⟨160, 180⟩ ⟨160, 130⟩ =
        Real.pi / 2 ∧
      GetFaces.tilt (fun y x : ℝ => Complex.arg ⟨x, y⟩) ⟨160, 130⟩ ⟨160, 180⟩ ≠
        GetFaces.tilt (fun y x : ℝ => Complex.arg ⟨x, y⟩) ⟨160, 180⟩ ⟨160, 130⟩ := by
  have h1 : GetFaces.tilt (fun y x : ℝ => Complex.arg ⟨x, y⟩) ⟨160, 130⟩ ⟨160, 180⟩ =
      -(Real.pi / 2) := GetFaces.tilt_vertical _ _ (by decide) (by decide)
  have h2 : GetFaces.tilt (fun y x : ℝ => Complex.arg ⟨x, y⟩) ⟨160, 180⟩ ⟨160, 130⟩ =
      Real.pi / 2 := by
    rw [GetFaces.tilt_of_not_lt _ _ (by decide)]
    have e : (((⟨160, 180⟩ : Point).x - (⟨160, 130⟩ : Point).x : Int) : ℝ) = 0 := by norm_num
    rw [e]
    exact (atan2_values 0 _).2.1 (by norm_num)
  refine ⟨h1, h2, ?_⟩
  rw [h1, h2]
  have := Real.pi_pos
  intro hc
  linarith

/-- C10, amended. The tilt is the same under both labellings of two points `a` and `b` when
they have different `x` or are the same point; when they have the same `x` the two
labellings give opposite tilts. The width is the same under both labellings in every case. -/
theorem GetFaces.tilt_swap (detection : Rect) (a b : Point) :
    (a.x ≠ b.x ∨ a.y = b.y →
      GetFaces.tilt (fun y x : ℝ => Complex.arg ⟨x, y⟩) a b =
        GetFaces.tilt (fun y x : ℝ => Complex.arg ⟨x, y⟩) b a) ∧
    (a.x = b.x →
      GetFaces.tilt (fun y x : ℝ => Complex.arg ⟨x, y⟩) a b =
        -GetFaces.tilt (fun y x : ℝ => Complex.arg ⟨x, y⟩) b a) ∧
    (GetFaces.pose (fun y x : ℝ => Complex.arg ⟨x, y⟩) Real.cos detection a b).width =
      (GetFaces.pose (fun y x : ℝ => Complex.arg ⟨x, y⟩) Real.cos detection b a).width := by
  have hvert : a.x = b.x →
      GetFaces.tilt (fun y x : ℝ => Complex.arg ⟨x, y⟩) a b =
        -GetFaces.tilt (fun y x : ℝ => Complex.arg ⟨x, y⟩) b a := by
    intro hx
    rw [GetFaces.tilt_of_not_lt a b (by omega), GetFaces.tilt_of_not_lt b a (by omega)]
    have e1 : ((a.x - b.x : Int) : ℝ) = 0 := by
      rw [show a.x - b.x = 0 by omega]; simp
    have e2 : ((b.x - a.x : Int) : ℝ) = 0 := by
      rw [show b.x - a.x = 0 by omega]; simp
    have e3 : ((a.y - b.y : Int) : ℝ) = -((b.y - a.y : Int) : ℝ) := by
      push_cast; ring
    rw [e1, e2, e3]
    exact atan2_vertical_neg _
  have hdiff : a.x ≠ b.x →
      GetFaces.tilt (fun y x : ℝ => Complex.arg ⟨x, y⟩) a b =
        GetFaces.tilt (fun y x : ℝ => Complex.arg ⟨x, y⟩) b a := by
    intro hx
    by_cases h : a.x < b.x
    · rw [GetFaces.tilt_of_lt a b h, GetFaces.tilt_of_not_lt b a (by omega)]
    · rw [GetFaces.tilt_of_not_lt a b h, GetFaces.tilt_of_lt b a (by omega)]
  refine ⟨?_, hvert, ?_⟩
  · rintro (hx | hy)
    · exact hdiff hx
    · by_cases hx : a.x = b.x
      · have hab : a = b := by
          cases a; cases b; simp_all
        rw [hab]
      · exact hdiff hx
  · show ((detection.width : ℝ) /
        Real.cos (GetFaces.tilt (fun y x : ℝ => Complex.arg ⟨x, y⟩) a b)) * 0.5 =
      ((detection.width : ℝ) /
        Real.cos (GetFaces.tilt (fun y x : ℝ => Complex.arg ⟨x, y⟩) b a)) * 0.5
    by_cases hx : a.x = b.x
    · rw [hvert hx, Real.cos_neg]
    · rw [hdiff hx]

/-- C10 amended, evaluated: the eyes `(10, 10)` and `(30, 20)` give the same tilt under both
labellings. -/
theorem GetFaces.tilt_swap_witness :
    (⟨10, 10⟩ : Point).x ≠ (⟨30, 20⟩ : Point).x ∧
      GetFaces.tilt (fun y x : ℝ => Complex.arg ⟨x, y⟩) ⟨10, 10⟩ ⟨30, 20⟩ =
        GetFaces.tilt (fun y x : ℝ => Complex.arg ⟨x, y⟩) ⟨30, 20⟩ ⟨10, 10⟩ :=
  ⟨by decide, (GetFaces.tilt_swap ⟨0, 0, 40, 40⟩ ⟨10, 10⟩ ⟨30, 20⟩).1 (Or.inl (by decide))⟩

end OpenCVFun
